import Mathlib

/-!
# openfeature: evaluation context and package singleton

A shallow embedding of `openfeature/evaluation_context.go` and
`openfeature/openfeature.go`.

Go maps are reference values: a `map[string]any` is either `nil` or a pointer
to a table that every holder of the pointer can mutate.  The embedding keeps
that: map tables live in a `Heap`, a map value is a `MapRef` (nil or an
address), `make` allocates a new address, and index writes and `delete`
update the table in place.  Functions of the source that allocate or write
take the heap and return the new heap.
-/

namespace OpenFeature

/-! ## Go values -/

/-- A Go map value: `none` is the nil map, `some a` points to table `a`. -/
abbrev MapRef := Option Nat

/-- The struct `EvaluationContext` of evaluation_context.go: a targeting key
and a reference to the attribute table. -/
structure EvaluationContext where
  targetingKey : String
  attributes : MapRef
deriving DecidableEq, Repr

/-- A value of Go's interface type `any`, as far as this package stores one:
the nil interface, scalars, a nested map (held by reference) and an
`EvaluationContext` struct. -/
inductive Any where
  | null
  | bool (b : Bool)
  | int (i : Int)
  | str (s : String)
  | map (r : MapRef)
  | evalCtx (e : EvaluationContext)
deriving DecidableEq, Repr

/-- The table behind a non-nil `map[string]any`: finitely many entries, each
key at most once. -/
abbrev GoMap := AList (fun _ : String => Any)

/-- The map tables allocated so far, by address. -/
abbrev Heap := List GoMap

/-- The table a map value denotes; ranging over or reading the nil map sees no
entry. -/
def Heap.table (h : Heap) : MapRef → GoMap
  | none => ∅
  | some a => h.getD a ∅

/-- A map value is live in `h` when it is nil or its table has been
allocated. -/
def Heap.Live (h : Heap) : MapRef → Prop
  | none => True
  | some a => a < h.length

instance (h : Heap) (r : MapRef) : Decidable (h.Live r) := by
  cases r <;> simp only [Heap.Live] <;> infer_instance

/-- Go `make(map[string]any, n)`: a new empty table at a new address (the
capacity hint has no observable effect). -/
def Heap.make (h : Heap) : MapRef × Heap :=
  (some h.length, h ++ [∅])

/-- Go `m[k]` : the stored value, or the zero value of `any` (the nil
interface) when the key is absent or the map is nil. -/
def Heap.index (h : Heap) (m : MapRef) (k : String) : Any :=
  ((h.table m).lookup k).getD Any.null

/-- Go `m[k] = v`.  An assignment to an entry of the nil map panics, so the
program goes no further; no function of the source performs one, and here it
leaves the heap as it is. -/
def Heap.assign (h : Heap) (m : MapRef) (k : String) (v : Any) : Heap :=
  match m with
  | none => h
  | some a => h.set a ((h.getD a ∅).insert k v)

/-- Go `delete(m, k)`; a no-op on the nil map. -/
def Heap.delete (h : Heap) (m : MapRef) (k : String) : Heap :=
  match m with
  | none => h
  | some a => h.set a ((h.getD a ∅).erase k)

/-- Go `maps.Copy(dst, src)`: `for k, v := range src { dst[k] = v }`. -/
def mapsCopy (h : Heap) (dst src : MapRef) : Heap :=
  (h.table src).entries.foldl (fun h e => h.assign dst e.1 e.2) h

/-! ## evaluation_context.go -/

namespace EvaluationContext

/-- Source: `func (e EvaluationContext) Attribute(key string) any`. -/
def Attribute (e : EvaluationContext) (h : Heap) (key : String) : Any :=
  h.index e.attributes key

/-- Source: `func (e EvaluationContext) TargetingKey() string`. -/
def TargetingKey (e : EvaluationContext) : String :=
  e.targetingKey

/-- Source: `func (e EvaluationContext) Attributes() map[string]any`. -/
def Attributes (e : EvaluationContext) (h : Heap) : MapRef × Heap :=
  let (attrs, h1) := h.make
  (attrs, mapsCopy h1 attrs e.attributes)

end EvaluationContext

/-- Modelled from the spec: the constant `TargetingKey`, declared outside the
two files embedded here; the reserved key of the flattened context is
`"targetingKey"`. -/
def TargetingKey : String := "targetingKey"

/-- Source: `func (e EvaluationContext) Flattened() FlattenedContext`
(`FlattenedContext` is a `map[string]any`; the literal `FlattenedContext{}`
allocates an empty table). -/
def EvaluationContext.Flattened (e : EvaluationContext) (h : Heap) : MapRef × Heap :=
  let (flatCtx0, h0) := h.make
  let (flatCtx, h1) :=
    if e.attributes ≠ none then e.Attributes h0 else (flatCtx0, h0)
  if e.targetingKey ≠ "" then
    (flatCtx, h1.assign flatCtx OpenFeature.TargetingKey (Any.str e.targetingKey))
  else
    (flatCtx, h1)

/-- Source: `func NewEvaluationContext(targetingKey string, attributes map[string]any)`. -/
def NewEvaluationContext (targetingKey : String) (attributes : MapRef) (h : Heap) :
    EvaluationContext × Heap :=
  let (attrs, h1) := h.make
  let h2 := mapsCopy h1 attrs attributes
  ({ targetingKey := targetingKey, attributes := attrs }, h2)

/-- Source: `func NewTargetlessEvaluationContext(attributes map[string]any)`. -/
def NewTargetlessEvaluationContext (attributes : MapRef) (h : Heap) :
    EvaluationContext × Heap :=
  NewEvaluationContext "" attributes h

/-! ## Carriers (`context.Context`) -/

/-- The key of a value attached to a carrier.  Keys are compared with `==` on
interface values; `transactionContext` is the single value of the unexported
type `contextKey`, so every key a caller outside this file can build is
`other`. -/
inductive Key where
  | transactionContext
  | other (n : Nat)
deriving DecidableEq, Repr

/-- A carrier: `context.Background()`, a child made by `context.WithValue`, or
a cancellation-aware child, with whether its cancellation has fired. -/
inductive Context where
  | background
  | withValue (parent : Context) (key : Key) (val : Any)
  | withCancel (parent : Context) (fired : Bool)
deriving DecidableEq, Repr

/-- Go `ctx.Value(key)`: the value of the innermost `WithValue` under that key,
the nil interface when there is none. -/
def Context.Value : Context → Key → Any
  | .background, _ => Any.null
  | .withValue parent k v, key => if k = key then v else parent.Value key
  | .withCancel parent _, key => parent.Value key

/-- Go `ctx.Err() != nil`: the carrier or one of its ancestors is cancelled. -/
def Context.cancelled : Context → Bool
  | .background => false
  | .withValue parent _ _ => parent.cancelled
  | .withCancel parent fired => fired || parent.cancelled

/-- A carrier derived by attaching the given values, innermost last. -/
def Context.attach (ctx : Context) (kvs : List (Key × Any)) : Context :=
  kvs.foldl (fun c kv => Context.withValue c kv.1 kv.2) ctx

/-- Source: `func WithTransactionContext(ctx context.Context, ec EvaluationContext)`. -/
def WithTransactionContext (ctx : Context) (ec : EvaluationContext) : Context :=
  Context.withValue ctx Key.transactionContext (Any.evalCtx ec)

/-- Source: `func TransactionContext(ctx context.Context) EvaluationContext`;
the type assertion `.(EvaluationContext)` succeeds exactly on a stored struct,
and `EvaluationContext{}` has the empty key and the nil map. -/
def TransactionContext (ctx : Context) : EvaluationContext :=
  match ctx.Value Key.transactionContext with
  | Any.evalCtx ec => ec
  | _ => { targetingKey := "", attributes := none }

/-- Modelled from the spec: the helper `mergeContexts`, which is called by
`MergeTransactionContext` and defined outside the two files embedded here.
Its first argument is the higher-precedence side: the result has the keys of
both sides, the higher side overwrites a key set by the lower one, and the
targeting key is the first non-empty one from highest to lowest precedence.
The result is a new context with a table of its own. -/
def mergeContexts (hi lo : EvaluationContext) (h : Heap) : EvaluationContext × Heap :=
  let (attrs, h1) := h.make
  let h2 := mapsCopy h1 attrs lo.attributes
  let h3 := mapsCopy h2 attrs hi.attributes
  ({ targetingKey := if hi.targetingKey ≠ "" then hi.targetingKey else lo.targetingKey,
     attributes := attrs }, h3)

/-- Source: `func MergeTransactionContext(ctx context.Context, ec EvaluationContext)`. -/
def MergeTransactionContext (ctx : Context) (ec : EvaluationContext) (h : Heap) :
    Context × Heap :=
  let oldTc := TransactionContext ctx
  let (mergedTc, h1) := mergeContexts ec oldTc h
  (WithTransactionContext ctx mergedTc, h1)

/-! ## What a caller observes -/

/-- Two tables with the same key/value entries. -/
def SameEntries (a b : GoMap) : Prop :=
  ∀ key : String, a.lookup key = b.lookup key

/-- The entries of the mapping that `e.Attributes()` returns when called in
heap `h`. -/
def EvaluationContext.attributesView (e : EvaluationContext) (h : Heap) : GoMap :=
  (e.Attributes h).2.table (e.Attributes h).1

/-- The entries of the mapping that `e.Flattened()` returns when called in
heap `h`. -/
def EvaluationContext.flattenedView (e : EvaluationContext) (h : Heap) : GoMap :=
  (e.Flattened h).2.table (e.Flattened h).1

/-- One mutation a holder of a map value can perform on it. -/
inductive MapOp where
  | assign (k : String) (v : Any)
  | delete (k : String)
deriving DecidableEq, Repr

/-- Apply one mutation to the table behind `m`. -/
def Heap.mutate1 (h : Heap) (m : MapRef) : MapOp → Heap
  | .assign k v => h.assign m k v
  | .delete k => h.delete m k

/-- Apply a sequence of mutations to the table behind `m`, in order. -/
def Heap.mutate (h : Heap) (m : MapRef) (ops : List MapOp) : Heap :=
  ops.foldl (fun h op => h.mutate1 m op) h

/-! ## openfeature.go: the package singleton

The evaluation API and the event executor are objects held by pointer; they
live in two stores, and the package variables `api` and `eventing` hold
addresses into them.  A constructor allocates the next address of its store. -/

/-- A Go `error` that is not nil. -/
inductive Error where
  | contextCancelled
  | providerShutdown (msg : String)
  | invalidProvider
deriving DecidableEq, Repr

/-- Modelled from the spec: a provider as shutdown sees it, declared outside
the two files embedded here.  `shutdown` is the outcome of its optional
shutdown capability: `none` when the provider has none or when it succeeds. -/
structure FeatureProvider where
  name : String
  shutdown : Option Error
deriving DecidableEq, Repr

/-- Modelled from the spec: the state of an event executor, declared outside
the two files embedded here: the handler registrations (event type and
callback identity) in insertion order. -/
structure EventExecutor where
  handlers : List (String × Nat)
deriving DecidableEq, Repr

/-- Modelled from the spec: the state of an evaluation API instance, declared
outside the two files embedded here: the executor it is built over, the
registry from domain to provider, the global hooks in insertion order and the
global evaluation context. -/
structure EvaluationAPI where
  eventExecutor : Nat
  registry : List (String × FeatureProvider)
  hooks : List Nat
  evalCtx : EvaluationContext
deriving DecidableEq, Repr

/-- The package state: the objects allocated so far and the variables `api`
and `eventing` of openfeature.go. -/
structure Package where
  executors : List EventExecutor
  apis : List EvaluationAPI
  api : Nat
  eventing : Nat
deriving DecidableEq, Repr

/-- Modelled from the spec: the constructor `newEventExecutor`, defined
outside the two files embedded here: a new executor with no registration. -/
def newEventExecutor (s : Package) : Nat × Package :=
  (s.executors.length, { s with executors := s.executors ++ [{ handlers := [] }] })

/-- Modelled from the spec: the constructor `newEvaluationAPI`, defined
outside the two files embedded here: a new API instance over the given
executor, with an empty registry, no hook and the empty evaluation context. -/
def newEvaluationAPI (exec : Nat) (s : Package) : Nat × Package :=
  (s.apis.length,
    { s with apis := s.apis ++ [{ eventExecutor := exec, registry := [], hooks := [],
                                  evalCtx := { targetingKey := "", attributes := none } }] })

/-- The API instance at an address (the zero value where nothing is
allocated). -/
def Package.apiAt (s : Package) (a : Nat) : EvaluationAPI :=
  s.apis.getD a { eventExecutor := 0, registry := [], hooks := [],
                  evalCtx := { targetingKey := "", attributes := none } }

/-- The executor allocated at an address, `none` where nothing has been
allocated. -/
def Package.executorAt (s : Package) (a : Nat) : Option EventExecutor :=
  s.executors[a]?

/-- The API instance allocated at an address, `none` where nothing has been
allocated. -/
def Package.instanceAt (s : Package) (a : Nat) : Option EvaluationAPI :=
  s.apis[a]?

/-- The state of an API instance right after `newEvaluationAPI(exec)`: built
over `exec`, nothing registered. -/
def freshAPI (exec : Nat) : EvaluationAPI :=
  { eventExecutor := exec, registry := [], hooks := [],
    evalCtx := { targetingKey := "", attributes := none } }

/-- The state of an executor right after `newEventExecutor()`. -/
def freshExecutor : EventExecutor := { handlers := [] }

/-- Modelled from the spec: the method `Shutdown` of the API instance, defined
outside the two files embedded here.  It shuts down every registered provider,
returns the first error met (here: in registry order), or a cancellation error
when the carrier is cancelled, clears the registry and resets the executor of
the instance. -/
def Package.apiShutdown (s : Package) (a : Nat) (ctx : Context) : Option Error × Package :=
  let inst := s.apiAt a
  let err :=
    if ctx.cancelled then some Error.contextCancelled
    else inst.registry.findSome? (fun entry => entry.2.shutdown)
  (err, { s with apis := s.apis.set a { inst with registry := [] },
                 executors := s.executors.set inst.eventExecutor { handlers := [] } })

/-- Source: `func initSingleton()`. -/
def initSingleton (s : Package) : Package :=
  let (exec, s1) := newEventExecutor s
  let s2 := { s1 with eventing := exec }
  let (a, s3) := newEvaluationAPI exec s2
  { s3 with api := a }

/-- Source: `func Shutdown(ctx context.Context) error`. -/
def Shutdown (ctx : Context) (s : Package) : Option Error × Package :=
  let (err, s1) := s.apiShutdown s.api ctx
  let s2 := initSingleton s1
  (err, s2)

/-- Modelled from the spec: the method `SetNamedProvider` of the API instance,
defined outside the two files embedded here; a nil provider is `none`.  With a
nil provider it fails at once with `InvalidProviderError` and binds nothing.
Otherwise it creates or replaces the entry of the domain and returns as soon
as the entry is registered; initialisation runs in the background and its
outcome is not returned to the caller. -/
def Package.apiSetNamedProvider (s : Package) (a : Nat) (_ctx : Context) (domain : String)
    (provider : Option FeatureProvider) : Option Error × Package :=
  match provider with
  | none => (some Error.invalidProvider, s)
  | some p =>
    let inst := s.apiAt a
    let bound : EvaluationAPI :=
      { inst with registry := (domain, p) :: inst.registry.filter (fun e => e.1 ≠ domain) }
    (none, { s with apis := s.apis.set a bound })

/-- Modelled from the spec: the method `SetProvider` of the API instance,
defined outside the two files embedded here: the same operation on the default
domain, whose key is the empty string. -/
def Package.apiSetProvider (s : Package) (a : Nat) (ctx : Context)
    (provider : Option FeatureProvider) : Option Error × Package :=
  s.apiSetNamedProvider a ctx "" provider

/-- Source: `func SetProvider(ctx context.Context, provider FeatureProvider) error`. -/
def SetProvider (ctx : Context) (provider : Option FeatureProvider) (s : Package) :
    Option Error × Package :=
  s.apiSetProvider s.api ctx provider

/-- Source: `func SetNamedProvider(ctx context.Context, domain string, provider FeatureProvider) error`. -/
def SetNamedProvider (ctx : Context) (domain : String) (provider : Option FeatureProvider)
    (s : Package) : Option Error × Package :=
  s.apiSetNamedProvider s.api ctx domain provider

/-! ## Sample inputs -/

/-- The table `{"a": 1}`. -/
def tableA1 : GoMap := (∅ : GoMap).insert "a" (Any.int 1)

/-- A heap whose only table, at address 0, is `{"a": 1}`. -/
def heapA1 : Heap := [tableA1]

/-- The context with targeting key `"u1"` whose attributes are the table at
address 0. -/
def ctxU1 : EvaluationContext := { targetingKey := "u1", attributes := some 0 }

/-- The tables `{"a": 1}`, `{"b": 2}` and `{"a": 2}` at addresses 0, 1, 2. -/
def heapABA : Heap :=
  [tableA1, (∅ : GoMap).insert "b" (Any.int 2), (∅ : GoMap).insert "a" (Any.int 2)]

/-- A carrier with the transaction context `{"a": 1}` merged in. -/
def mergedA1 : Context × Heap :=
  MergeTransactionContext Context.background { targetingKey := "", attributes := some 0 } heapABA

/-- A carrier holding an integer under the transaction-context key. -/
def ctxWrongType : Context :=
  Context.withValue Context.background Key.transactionContext (Any.int 3)

/-- A package state whose API instance has two providers bound, the second
failing to shut down, one hook and one handler. -/
def busyPackage : Package :=
  { executors := [{ handlers := [("PROVIDER_READY", 7)] }],
    apis := [{ eventExecutor := 0,
               registry := [("", { name := "p", shutdown := none }),
                            ("d", { name := "q", shutdown := some (Error.providerShutdown "boom") })],
               hooks := [3],
               evalCtx := { targetingKey := "g", attributes := none } }],
    api := 0,
    eventing := 0 }

/-- The context with the empty targeting key whose attributes are the table at
address 0. -/
def ctxNoKey : EvaluationContext := { targetingKey := "", attributes := some 0 }

/-- The context with targeting key `"k"` whose attributes are the table at
address 1. -/
def ctxK1 : EvaluationContext := { targetingKey := "k", attributes := some 1 }

/-- A heap whose only table, at address 0, is `{"targetingKey": 4}`. -/
def heapReserved : Heap := [(∅ : GoMap).insert "targetingKey" (Any.int 4)]

/-- The package state that `Shutdown` leaves from `busyPackage`: the old
instance with its registry cleared and its executor reset, and a second
executor and a second instance, held by `eventing` and `api`. -/
def afterFirstShutdown : Package :=
  { executors := [{ handlers := [] }, { handlers := [] }],
    apis := [{ eventExecutor := 0, registry := [], hooks := [3],
               evalCtx := { targetingKey := "g", attributes := none } },
             { eventExecutor := 1, registry := [], hooks := [],
               evalCtx := { targetingKey := "", attributes := none } }],
    api := 1,
    eventing := 1 }

/-- The package state a second `Shutdown` leaves: a third executor and a third
instance, held by `eventing` and `api`. -/
def afterSecondShutdown : Package :=
  { executors := [{ handlers := [] }, { handlers := [] }, { handlers := [] }],
    apis := [{ eventExecutor := 0, registry := [], hooks := [3],
               evalCtx := { targetingKey := "g", attributes := none } },
             { eventExecutor := 1, registry := [], hooks := [],
               evalCtx := { targetingKey := "", attributes := none } },
             { eventExecutor := 2, registry := [], hooks := [],
               evalCtx := { targetingKey := "", attributes := none } }],
    api := 2,
    eventing := 2 }

/-- A holder's mutations: overwrite `"a"`, add `"z"`, delete `"a"`. -/
def sampleOps : List MapOp :=
  [MapOp.assign "a" (Any.int 9), MapOp.assign "z" (Any.bool true), MapOp.delete "a"]

/-! ## Facts about the heap -/

theorem table_make_new (h : Heap) : h.make.2.table h.make.1 = ∅ := by
  simp [Heap.make, Heap.table, List.getD_eq_getElem?_getD]

theorem table_make_old (h : Heap) (r : MapRef) (hr : h.Live r) :
    h.make.2.table r = h.table r := by
  cases r with
  | none => rfl
  | some a =>
    simp only [Heap.Live] at hr
    simp [Heap.make, Heap.table, List.getD_eq_getElem?_getD, List.getElem?_append_left hr]

theorem length_make (h : Heap) : h.make.2.length = h.length + 1 := by
  simp [Heap.make]

theorem live_make_new (h : Heap) : h.make.2.Live h.make.1 := by
  simp [Heap.make, Heap.Live]

theorem live_make_old (h : Heap) (r : MapRef) (hr : h.Live r) : h.make.2.Live r := by
  cases r with
  | none => trivial
  | some a =>
    simp only [Heap.Live] at hr
    simp only [Heap.Live, length_make]
    omega

theorem make_ne_of_live (h : Heap) (r : MapRef) (hr : h.Live r) : h.make.1 ≠ r := by
  cases r with
  | none => simp [Heap.make]
  | some a =>
    simp only [Heap.Live] at hr
    simp only [Heap.make, ne_eq, Option.some.injEq]
    omega

theorem length_assign (h : Heap) (m : MapRef) (k : String) (v : Any) :
    (h.assign m k v).length = h.length := by
  cases m <;> simp [Heap.assign]

theorem table_assign_self (h : Heap) (a : Nat) (ha : a < h.length) (k : String) (v : Any) :
    (h.assign (some a) k v).table (some a) = (h.table (some a)).insert k v := by
  simp [Heap.assign, Heap.table, List.getD_eq_getElem?_getD, List.getElem?_set, ha]

theorem table_assign_other (h : Heap) (m r : MapRef) (hne : m ≠ r) (k : String) (v : Any) :
    (h.assign m k v).table r = h.table r := by
  cases m with
  | none => rfl
  | some a =>
    cases r with
    | none => rfl
    | some b =>
      have hab : a ≠ b := fun e => hne (by rw [e])
      simp [Heap.assign, Heap.table, List.getD_eq_getElem?_getD, List.getElem?_set, hab]

theorem length_delete (h : Heap) (m : MapRef) (k : String) :
    (h.delete m k).length = h.length := by
  cases m <;> simp [Heap.delete]

theorem table_delete_other (h : Heap) (m r : MapRef) (hne : m ≠ r) (k : String) :
    (h.delete m k).table r = h.table r := by
  cases m with
  | none => rfl
  | some a =>
    cases r with
    | none => rfl
    | some b =>
      have hab : a ≠ b := fun e => hne (by rw [e])
      simp [Heap.delete, Heap.table, List.getD_eq_getElem?_getD, List.getElem?_set, hab]

/-! ## Facts about `maps.Copy` -/

/-- The loop of `maps.Copy` over the entries still to visit. -/
theorem length_copyLoop (dst : MapRef) (l : List (Sigma fun _ : String => Any)) (h : Heap) :
    (l.foldl (fun h e => h.assign dst e.1 e.2) h).length = h.length := by
  induction l generalizing h with
  | nil => rfl
  | cons e l ih => rw [List.foldl_cons, ih, length_assign]

theorem table_copyLoop_other (dst r : MapRef) (hne : dst ≠ r)
    (l : List (Sigma fun _ : String => Any)) (h : Heap) :
    (l.foldl (fun h e => h.assign dst e.1 e.2) h).table r = h.table r := by
  induction l generalizing h with
  | nil => rfl
  | cons e l ih => rw [List.foldl_cons, ih, table_assign_other h dst r hne]

theorem lookup_copyLoop_self (d : Nat) (l : List (Sigma fun _ : String => Any))
    (hl : l.NodupKeys) (h : Heap) (hd : d < h.length) (key : String) :
    ((l.foldl (fun h e => h.assign (some d) e.1 e.2) h).table (some d)).lookup key =
      match l.dlookup key with
      | some v => some v
      | none => (h.table (some d)).lookup key := by
  induction l generalizing h with
  | nil => rfl
  | cons e l ih =>
    obtain ⟨hnot, hl⟩ := List.nodupKeys_cons.mp hl
    rw [List.foldl_cons, ih hl _ (by rw [length_assign]; exact hd),
      table_assign_self h d hd]
    by_cases hk : key = e.1
    · subst hk
      have hnone : List.dlookup e.1 l = none := List.dlookup_eq_none.mpr hnot
      rw [hnone, List.dlookup_cons_eq]
      exact AList.lookup_insert _
    · rw [List.dlookup_cons_ne _ _ hk, AList.lookup_insert_ne hk]

theorem length_mapsCopy (h : Heap) (dst src : MapRef) :
    (mapsCopy h dst src).length = h.length :=
  length_copyLoop dst _ h

theorem table_mapsCopy_other (h : Heap) (dst src r : MapRef) (hne : dst ≠ r) :
    (mapsCopy h dst src).table r = h.table r :=
  table_copyLoop_other dst r hne _ h

theorem lookup_mapsCopy (h : Heap) (d : Nat) (hd : d < h.length) (src : MapRef)
    (key : String) :
    ((mapsCopy h (some d) src).table (some d)).lookup key =
      match (h.table src).lookup key with
      | some v => some v
      | none => (h.table (some d)).lookup key :=
  lookup_copyLoop_self d _ (h.table src).nodupKeys h hd key

/-- Copying into a table that was just made leaves exactly the source's
entries in it. -/
theorem lookup_mapsCopy_make (h : Heap) (src : MapRef) (hs : h.Live src) (key : String) :
    ((mapsCopy h.make.2 h.make.1 src).table h.make.1).lookup key =
      (h.table src).lookup key := by
  have hd : h.length < h.make.2.length := by rw [length_make]; omega
  have := lookup_mapsCopy h.make.2 h.length hd src key
  rw [table_make_old h src hs] at this
  have hnew : h.make.2.table (some h.length) = ∅ := table_make_new h
  rw [hnew, AList.lookup_empty] at this
  change ((mapsCopy h.make.2 (some h.length) src).table (some h.length)).lookup key = _
  rw [this]
  cases (h.table src).lookup key <;> rfl

/-- Copying into a table that was just made leaves every live table as it
was. -/
theorem table_mapsCopy_make_old (h : Heap) (src r : MapRef) (hr : h.Live r) :
    (mapsCopy h.make.2 h.make.1 src).table r = h.table r := by
  rw [table_mapsCopy_other _ _ _ _ (make_ne_of_live h r hr), table_make_old h r hr]

theorem live_mapsCopy_make (h : Heap) (src r : MapRef) (hr : h.Live r) :
    (mapsCopy h.make.2 h.make.1 src).Live r := by
  cases r with
  | none => trivial
  | some a =>
    simp only [Heap.Live] at hr
    simp only [Heap.Live, length_mapsCopy, length_make]
    omega

theorem live_mapsCopy_make_new (h : Heap) (src : MapRef) :
    (mapsCopy h.make.2 h.make.1 src).Live h.make.1 := by
  simp [Heap.Live, Heap.make, length_mapsCopy]

/-! ## Facts about mutation by a holder of a map value -/

theorem length_mutate (h : Heap) (m : MapRef) (ops : List MapOp) :
    (h.mutate m ops).length = h.length := by
  induction ops generalizing h with
  | nil => rfl
  | cons op ops ih =>
    rw [Heap.mutate, List.foldl_cons]
    change (Heap.mutate _ m ops).length = _
    rw [ih]
    cases op
    · exact length_assign h m _ _
    · exact length_delete h m _

theorem table_mutate_other (h : Heap) (m r : MapRef) (hne : m ≠ r) (ops : List MapOp) :
    (h.mutate m ops).table r = h.table r := by
  induction ops generalizing h with
  | nil => rfl
  | cons op ops ih =>
    rw [Heap.mutate, List.foldl_cons]
    change (Heap.mutate _ m ops).table r = _
    rw [ih]
    cases op
    · exact table_assign_other h m r hne _ _
    · exact table_delete_other h m r hne _

theorem live_mutate (h : Heap) (m r : MapRef) (ops : List MapOp) (hr : h.Live r) :
    (h.mutate m ops).Live r := by
  cases r with
  | none => trivial
  | some a =>
    simp only [Heap.Live] at hr
    simp only [Heap.Live, length_mutate]
    exact hr

/-! ## Facts about the accessors -/

theorem attributes_fst (e : EvaluationContext) (h : Heap) :
    (e.Attributes h).1 = some h.length := rfl

theorem attributes_fresh (e : EvaluationContext) (h : Heap) (r : MapRef) (hr : h.Live r) :
    (e.Attributes h).1 ≠ r :=
  make_ne_of_live h r hr

theorem table_attributes_old (e : EvaluationContext) (h : Heap) (r : MapRef)
    (hr : h.Live r) : (e.Attributes h).2.table r = h.table r :=
  table_mapsCopy_make_old h e.attributes r hr

theorem live_attributes_old (e : EvaluationContext) (h : Heap) (r : MapRef)
    (hr : h.Live r) : (e.Attributes h).2.Live r :=
  live_mapsCopy_make h e.attributes r hr

theorem live_attributes_new (e : EvaluationContext) (h : Heap) :
    (e.Attributes h).2.Live (e.Attributes h).1 :=
  live_mapsCopy_make_new h e.attributes

/-- The mapping `Attributes()` returns holds the entries of the stored one. -/
theorem attributesView_eq (e : EvaluationContext) (h : Heap) (he : h.Live e.attributes) :
    SameEntries (e.attributesView h) (h.table e.attributes) :=
  fun key => lookup_mapsCopy_make h e.attributes he key

theorem flattened_fst_ne (e : EvaluationContext) (h : Heap) (r : MapRef) (hr : h.Live r) :
    (e.Flattened h).1 ≠ r := by
  have h0 : h.make.2.Live r := live_make_old h r hr
  unfold EvaluationContext.Flattened
  by_cases ha : e.attributes = none <;> by_cases hk : e.targetingKey = "" <;>
    simp only [ha, hk, ne_eq, not_true_eq_false, not_false_eq_true, if_true, if_false]
  · exact make_ne_of_live h r hr
  · exact make_ne_of_live h r hr
  · exact attributes_fresh e _ r h0
  · exact attributes_fresh e _ r h0

theorem table_flattened_old (e : EvaluationContext) (h : Heap) (r : MapRef)
    (hr : h.Live r) : (e.Flattened h).2.table r = h.table r := by
  have h0 : h.make.2.Live r := live_make_old h r hr
  have t0 : h.make.2.table r = h.table r := table_make_old h r hr
  unfold EvaluationContext.Flattened
  by_cases ha : e.attributes = none <;> by_cases hk : e.targetingKey = "" <;>
    simp only [ha, hk, ne_eq, not_true_eq_false, not_false_eq_true, if_true, if_false]
  · exact t0
  · rw [table_assign_other _ _ r (make_ne_of_live h r hr), t0]
  · rw [table_attributes_old e _ r h0, t0]
  · rw [table_assign_other _ _ r (attributes_fresh e _ r h0), table_attributes_old e _ r h0, t0]

theorem live_flattened_old (e : EvaluationContext) (h : Heap) (r : MapRef)
    (hr : h.Live r) : (e.Flattened h).2.Live r := by
  have h0 : h.make.2.Live r := live_make_old h r hr
  unfold EvaluationContext.Flattened
  by_cases ha : e.attributes = none <;> by_cases hk : e.targetingKey = "" <;>
    simp only [ha, hk, ne_eq, not_true_eq_false, not_false_eq_true, if_true, if_false]
  · exact h0
  · cases r with
    | none => trivial
    | some a => simpa only [Heap.Live, length_assign] using h0
  · exact live_attributes_old e _ r h0
  · have := live_attributes_old e _ r h0
    cases r with
    | none => trivial
    | some a => simpa only [Heap.Live, length_assign] using this

/-- The mapping `Flattened()` returns: the stored entries, and the targeting
key under the reserved key when it is not empty. -/
theorem lookup_flattenedView (e : EvaluationContext) (h : Heap) (he : h.Live e.attributes)
    (key : String) :
    (e.flattenedView h).lookup key =
      if e.targetingKey ≠ "" ∧ key = OpenFeature.TargetingKey then
        some (Any.str e.targetingKey)
      else (h.table e.attributes).lookup key := by
  have h0 : h.make.2.Live e.attributes := live_make_old h _ he
  have t0 : h.make.2.table e.attributes = h.table e.attributes := table_make_old h _ he
  have hlen : h.length < h.make.2.length := by rw [length_make]; omega
  unfold EvaluationContext.flattenedView EvaluationContext.Flattened
  by_cases ha : e.attributes = none <;> by_cases hk : e.targetingKey = "" <;>
    simp only [ha, hk, ne_eq, not_true_eq_false, not_false_eq_true, if_true, if_false,
      false_and, true_and]
  · rw [table_make_new]; rfl
  · change ((h.make.2.assign (some h.length) _ _).table (some h.length)).lookup key = _
    rw [table_assign_self _ _ hlen]
    have hnew : h.make.2.table (some h.length) = ∅ := table_make_new h
    rw [hnew]
    by_cases hkey : key = OpenFeature.TargetingKey
    · rw [if_pos hkey, hkey]; exact AList.lookup_insert _
    · rw [if_neg hkey, AList.lookup_insert_ne hkey]; rfl
  · have := attributesView_eq e h.make.2 h0 key
    rw [t0] at this
    exact this
  · have hv := attributesView_eq e h.make.2 h0 key
    rw [t0] at hv
    have hl : h.make.2.length < (e.Attributes h.make.2).2.length := by
      have := live_attributes_new e h.make.2
      simpa only [attributes_fst, Heap.Live] using this
    change (((e.Attributes h.make.2).2.assign (some h.make.2.length) _ _).table
      (some h.make.2.length)).lookup key = _
    rw [table_assign_self _ _ hl]
    by_cases hkey : key = OpenFeature.TargetingKey
    · rw [if_pos hkey, hkey]; exact AList.lookup_insert _
    · rw [if_neg hkey, AList.lookup_insert_ne hkey]; exact hv

/-- What the accessors return depends on the heap only through the stored
table. -/
theorem accessors_of_stored_eq (e : EvaluationContext) (h1 h2 : Heap)
    (l1 : h1.Live e.attributes) (l2 : h2.Live e.attributes)
    (ht : h1.table e.attributes = h2.table e.attributes) :
    SameEntries (e.attributesView h1) (e.attributesView h2) ∧
      (∀ key, e.Attribute h1 key = e.Attribute h2 key) ∧
      SameEntries (e.flattenedView h1) (e.flattenedView h2) := by
  refine ⟨fun key => ?_, fun key => ?_, fun key => ?_⟩
  · rw [attributesView_eq e h1 l1 key, attributesView_eq e h2 l2 key, ht]
  · simp only [EvaluationContext.Attribute, Heap.index, ht]
  · rw [lookup_flattenedView e h1 l1 key, lookup_flattenedView e h2 l2 key, ht]

/-! ## Facts about the constructor -/

theorem newEvaluationContext_fst (k : String) (m : MapRef) (h : Heap) :
    (NewEvaluationContext k m h).1 = { targetingKey := k, attributes := some h.length } := rfl

theorem newEvaluationContext_snd (k : String) (m : MapRef) (h : Heap) :
    (NewEvaluationContext k m h).2 = mapsCopy h.make.2 h.make.1 m := rfl

theorem live_newEvaluationContext (k : String) (m : MapRef) (h : Heap) :
    (NewEvaluationContext k m h).2.Live (NewEvaluationContext k m h).1.attributes :=
  live_mapsCopy_make_new h m

theorem live_newEvaluationContext_old (k : String) (m : MapRef) (h : Heap) (r : MapRef)
    (hr : h.Live r) : (NewEvaluationContext k m h).2.Live r :=
  live_mapsCopy_make h m r hr

/-- The table the constructor stores holds the entries of its argument. -/
theorem stored_newEvaluationContext (k : String) (m : MapRef) (h : Heap) (hm : h.Live m) :
    SameEntries ((NewEvaluationContext k m h).2.table (NewEvaluationContext k m h).1.attributes)
      (h.table m) :=
  fun key => lookup_mapsCopy_make h m hm key

theorem table_newEvaluationContext_old (k : String) (m : MapRef) (h : Heap) (r : MapRef)
    (hr : h.Live r) : (NewEvaluationContext k m h).2.table r = h.table r :=
  table_mapsCopy_make_old h m r hr

theorem newEvaluationContext_attributes_ne (k : String) (m : MapRef) (h : Heap)
    (hm : h.Live m) : (NewEvaluationContext k m h).1.attributes ≠ m :=
  make_ne_of_live h m hm

/-! ## Facts about carriers and merging -/

theorem transactionContext_with (ctx : Context) (ec : EvaluationContext) :
    TransactionContext (WithTransactionContext ctx ec) = ec := by
  simp [TransactionContext, WithTransactionContext, Context.Value]

theorem value_attach (ctx : Context) (kvs : List (Key × Any)) (key : Key)
    (hk : ∀ kv ∈ kvs, kv.1 ≠ key) : (ctx.attach kvs).Value key = ctx.Value key := by
  induction kvs generalizing ctx with
  | nil => rfl
  | cons kv kvs ih =>
    have h1 : kv.1 ≠ key := hk kv (List.mem_cons_self _ _)
    have h2 : ∀ x ∈ kvs, x.1 ≠ key := fun x hx => hk x (List.mem_cons_of_mem _ hx)
    rw [Context.attach, List.foldl_cons]
    change (Context.attach _ kvs).Value key = _
    rw [ih _ h2]
    simp [Context.Value, h1]

theorem mergeContexts_attributes (hi lo : EvaluationContext) (h : Heap) :
    (mergeContexts hi lo h).1.attributes = some h.length := rfl

theorem mergeContexts_targetingKey (hi lo : EvaluationContext) (h : Heap) :
    (mergeContexts hi lo h).1.targetingKey =
      if hi.targetingKey ≠ "" then hi.targetingKey else lo.targetingKey := rfl

theorem live_mergeContexts (hi lo : EvaluationContext) (h : Heap) :
    (mergeContexts hi lo h).2.Live (mergeContexts hi lo h).1.attributes := by
  simp [mergeContexts, Heap.Live, Heap.make, length_mapsCopy]

/-- The merged table: the higher side's entry where it has one, the lower
side's entry otherwise. -/
theorem lookup_mergeContexts (hi lo : EvaluationContext) (h : Heap)
    (hhi : h.Live hi.attributes) (hlo : h.Live lo.attributes) (key : String) :
    ((mergeContexts hi lo h).2.table (mergeContexts hi lo h).1.attributes).lookup key =
      match (h.table hi.attributes).lookup key with
      | some v => some v
      | none => (h.table lo.attributes).lookup key := by
  have hlen : h.length < (mapsCopy h.make.2 h.make.1 lo.attributes).length := by
    rw [length_mapsCopy, length_make]; omega
  have e1 := lookup_mapsCopy (mapsCopy h.make.2 h.make.1 lo.attributes) h.length hlen
    hi.attributes key
  rw [table_mapsCopy_make_old h lo.attributes hi.attributes hhi] at e1
  have e2 := lookup_mapsCopy_make h lo.attributes hlo key
  change ((mapsCopy (mapsCopy h.make.2 h.make.1 lo.attributes) (some h.length)
    hi.attributes).table (some h.length)).lookup key = _
  rw [e1]
  cases (h.table hi.attributes).lookup key with
  | some v => rfl
  | none => exact e2

/-! ## Facts about the package singleton -/

theorem length_apis_apiShutdown (s : Package) (a : Nat) (ctx : Context) :
    (s.apiShutdown a ctx).2.apis.length = s.apis.length := by
  simp [Package.apiShutdown]

theorem length_executors_apiShutdown (s : Package) (a : Nat) (ctx : Context) :
    (s.apiShutdown a ctx).2.executors.length = s.executors.length := by
  simp [Package.apiShutdown]

theorem initSingleton_api (s : Package) : (initSingleton s).api = s.apis.length := rfl

theorem initSingleton_eventing (s : Package) :
    (initSingleton s).eventing = s.executors.length := rfl

/-- The stores after `initSingleton`: one more executor, one more instance
built over it. -/
theorem initSingleton_executors (s : Package) :
    (initSingleton s).executors = s.executors ++ [freshExecutor] := rfl

theorem initSingleton_apis (s : Package) :
    (initSingleton s).apis = s.apis ++ [freshAPI s.executors.length] := rfl

/-- After `initSingleton` the variable `eventing` holds an allocated executor
with nothing registered. -/
theorem initSingleton_executorAt (s : Package) :
    (initSingleton s).executorAt (initSingleton s).eventing = some freshExecutor := by
  simp [Package.executorAt, initSingleton_executors, initSingleton_eventing]

/-- After `initSingleton` the variable `api` holds an allocated instance built
over the executor that `eventing` holds, with nothing registered. -/
theorem initSingleton_instanceAt (s : Package) :
    (initSingleton s).instanceAt (initSingleton s).api =
      some (freshAPI (initSingleton s).eventing) := by
  simp [Package.instanceAt, initSingleton_apis, initSingleton_api, initSingleton_eventing]

/-- Before `initSingleton` nothing is allocated at the addresses it hands out. -/
theorem initSingleton_new (s : Package) :
    s.executorAt (initSingleton s).eventing = none ∧
      s.instanceAt (initSingleton s).api = none := by
  simp [Package.executorAt, Package.instanceAt, initSingleton_api, initSingleton_eventing]

/-- The instance method `Shutdown` allocates and frees nothing. -/
theorem apiShutdown_allocated (s : Package) (a : Nat) (ctx : Context) (n : Nat) :
    ((s.apiShutdown a ctx).2.executorAt n = none ↔ s.executorAt n = none) ∧
      ((s.apiShutdown a ctx).2.instanceAt n = none ↔ s.instanceAt n = none) := by
  simp [Package.executorAt, Package.instanceAt, Package.apiShutdown]

/-- A freshly built instance read through the variable `api`. -/
theorem apiAt_of_instanceAt (s : Package) (a : Nat) (inst : EvaluationAPI)
    (h : s.instanceAt a = some inst) : s.apiAt a = inst := by
  simp only [Package.instanceAt] at h
  simp [Package.apiAt, List.getD_eq_getElem?_getD, h]

theorem shutdown_fst (ctx : Context) (s : Package) :
    (Shutdown ctx s).1 = (s.apiShutdown s.api ctx).1 := rfl

theorem shutdown_snd (ctx : Context) (s : Package) :
    (Shutdown ctx s).2 = initSingleton (s.apiShutdown s.api ctx).2 := rfl

/-! ## Further facts about carriers and merging -/

theorem transactionContext_of_absent (ctx : Context)
    (hno : ∀ e, ctx.Value Key.transactionContext ≠ Any.evalCtx e) :
    TransactionContext ctx = { targetingKey := "", attributes := none } := by
  unfold TransactionContext
  cases hv : ctx.Value Key.transactionContext with
  | evalCtx e => exact absurd hv (hno e)
  | _ => rfl

theorem mergeTransactionContext_eq (ctx : Context) (ec : EvaluationContext) (h : Heap) :
    MergeTransactionContext ctx ec h =
      (WithTransactionContext ctx (mergeContexts ec (TransactionContext ctx) h).1,
        (mergeContexts ec (TransactionContext ctx) h).2) := rfl

theorem transactionContext_merge (ctx : Context) (ec : EvaluationContext) (h : Heap) :
    TransactionContext (MergeTransactionContext ctx ec h).1 =
      (mergeContexts ec (TransactionContext ctx) h).1 := by
  rw [mergeTransactionContext_eq, transactionContext_with]

theorem length_mergeContexts (hi lo : EvaluationContext) (h : Heap) :
    (mergeContexts hi lo h).2.length = h.length + 1 := by
  simp [mergeContexts, Heap.make, length_mapsCopy]

theorem live_mergeContexts_old (hi lo : EvaluationContext) (h : Heap) (r : MapRef)
    (hr : h.Live r) : (mergeContexts hi lo h).2.Live r := by
  cases r with
  | none => trivial
  | some a =>
    simp only [Heap.Live] at hr
    simp only [Heap.Live, length_mergeContexts]
    omega

theorem table_mergeContexts_old (hi lo : EvaluationContext) (h : Heap) (r : MapRef)
    (hr : h.Live r) : (mergeContexts hi lo h).2.table r = h.table r := by
  change (mapsCopy (mapsCopy h.make.2 h.make.1 lo.attributes) h.make.1 hi.attributes).table r
    = _
  rw [table_mapsCopy_other _ _ _ _ (make_ne_of_live h r hr),
    table_mapsCopy_make_old h lo.attributes r hr]

/-- Any later heap in which the stored table of `e` is as in `h` shows the same
attributes. -/
theorem attributesView_of_table_eq (e : EvaluationContext) (h1 h : Heap)
    (hl : h1.Live e.attributes) (ht : h1.table e.attributes = h.table e.attributes) :
    SameEntries (e.attributesView h1) (h.table e.attributes) := by
  intro key
  rw [attributesView_eq e h1 hl key, ht]

/-- Merging the same higher side a second time changes neither the targeting
key nor the entries. -/
theorem mergeContexts_twice (hi lo : EvaluationContext) (h : Heap)
    (hhi : h.Live hi.attributes) (hlo : h.Live lo.attributes) :
    (mergeContexts hi (mergeContexts hi lo h).1 (mergeContexts hi lo h).2).1.targetingKey =
        (mergeContexts hi lo h).1.targetingKey ∧
      SameEntries
        ((mergeContexts hi (mergeContexts hi lo h).1 (mergeContexts hi lo h).2).1.attributesView
          (mergeContexts hi (mergeContexts hi lo h).1 (mergeContexts hi lo h).2).2)
        ((mergeContexts hi lo h).1.attributesView
          (mergeContexts hi (mergeContexts hi lo h).1 (mergeContexts hi lo h).2).2) := by
  have l1 := live_mergeContexts hi lo h
  have lhi := live_mergeContexts_old hi lo h hi.attributes hhi
  constructor
  · rw [mergeContexts_targetingKey, mergeContexts_targetingKey]
    by_cases hk : hi.targetingKey = "" <;> simp [hk]
  · intro key
    rw [attributesView_eq _ _ (live_mergeContexts hi _ _) key,
      lookup_mergeContexts hi _ _ lhi l1 key,
      table_mergeContexts_old hi lo h hi.attributes hhi,
      attributesView_eq _ _ (live_mergeContexts_old hi _ _ _ l1) key,
      table_mergeContexts_old hi _ _ _ l1,
      lookup_mergeContexts hi lo h hhi hlo key]
    cases (h.table hi.attributes).lookup key <;> rfl

/-! ## Claims -/

/-- C1: for every targeting key `k` and every attribute mapping `m` (the nil
mapping and the empty one included), the mapping returned by
`NewEvaluationContext(k, m).Attributes()` has exactly the key/value entries of
`m`, and `NewEvaluationContext(k, m).TargetingKey()` is `k`; `m` itself is left
as it was. -/
theorem newEvaluationContext_attributes_targetingKey (k : String) (m : MapRef) (h : Heap)
    (hm : h.Live m) :
    SameEntries
        ((NewEvaluationContext k m h).1.attributesView (NewEvaluationContext k m h).2)
        (h.table m) ∧
      (NewEvaluationContext k m h).1.TargetingKey = k ∧
      (NewEvaluationContext k m h).2.table m = h.table m := by
  refine ⟨fun key => ?_, rfl, table_newEvaluationContext_old k m h m hm⟩
  rw [attributesView_eq _ _ (live_newEvaluationContext k m h) key]
  exact stored_newEvaluationContext k m h hm key

theorem newEvaluationContext_attributes_targetingKey_witness :
    heapA1.Live (some 0) ∧
      (SameEntries
          ((NewEvaluationContext "k" (some 0) heapA1).1.attributesView
            (NewEvaluationContext "k" (some 0) heapA1).2)
          (heapA1.table (some 0)) ∧
        (NewEvaluationContext "k" (some 0) heapA1).1.TargetingKey = "k" ∧
        (NewEvaluationContext "k" (some 0) heapA1).2.table (some 0) = heapA1.table (some 0)) ∧
      ((NewEvaluationContext "k" (some 0) heapA1).1.attributesView
          (NewEvaluationContext "k" (some 0) heapA1).2).entries = [⟨"a", Any.int 1⟩] ∧
      ((NewEvaluationContext "k" none heapA1).1.attributesView
          (NewEvaluationContext "k" none heapA1).2).entries = [] :=
  ⟨by decide, newEvaluationContext_attributes_targetingKey "k" (some 0) heapA1 (by decide),
    by decide, by decide⟩

/-- C2: for every evaluation context `e`, whatever entries a caller adds,
overwrites or deletes in the mapping returned by `e.Attributes()` or in the
one returned by `e.Flattened()`, later calls of `e.Attributes()`,
`e.Attribute(key)` and `e.Flattened()` return what they return without the
mutation (`e.TargetingKey()` reads no map at all): the returned mapping is a
new one, different from the stored mapping, and the stored table is not
touched. -/
theorem accessors_hand_out_copies (e : EvaluationContext) (h : Heap)
    (he : h.Live e.attributes) (ops : List MapOp) :
    ((e.Attributes h).1 ≠ e.attributes ∧
      ((e.Attributes h).2.mutate (e.Attributes h).1 ops).table e.attributes =
        h.table e.attributes ∧
      SameEntries (e.attributesView ((e.Attributes h).2.mutate (e.Attributes h).1 ops))
        (e.attributesView (e.Attributes h).2) ∧
      (∀ key, e.Attribute ((e.Attributes h).2.mutate (e.Attributes h).1 ops) key =
        e.Attribute (e.Attributes h).2 key) ∧
      SameEntries (e.flattenedView ((e.Attributes h).2.mutate (e.Attributes h).1 ops))
        (e.flattenedView (e.Attributes h).2)) ∧
    ((e.Flattened h).1 ≠ e.attributes ∧
      ((e.Flattened h).2.mutate (e.Flattened h).1 ops).table e.attributes =
        h.table e.attributes ∧
      SameEntries (e.attributesView ((e.Flattened h).2.mutate (e.Flattened h).1 ops))
        (e.attributesView (e.Flattened h).2) ∧
      (∀ key, e.Attribute ((e.Flattened h).2.mutate (e.Flattened h).1 ops) key =
        e.Attribute (e.Flattened h).2 key) ∧
      SameEntries (e.flattenedView ((e.Flattened h).2.mutate (e.Flattened h).1 ops))
        (e.flattenedView (e.Flattened h).2)) := by
  constructor
  · have hne := attributes_fresh e h e.attributes he
    have hl := live_attributes_old e h e.attributes he
    have ht := table_mutate_other (e.Attributes h).2 _ e.attributes hne ops
    exact ⟨hne, by rw [ht, table_attributes_old e h _ he],
      accessors_of_stored_eq e _ _ (live_mutate _ _ _ ops hl) hl ht⟩
  · have hne := flattened_fst_ne e h e.attributes he
    have hl := live_flattened_old e h e.attributes he
    have ht := table_mutate_other (e.Flattened h).2 _ e.attributes hne ops
    exact ⟨hne, by rw [ht, table_flattened_old e h _ he],
      accessors_of_stored_eq e _ _ (live_mutate _ _ _ ops hl) hl ht⟩

theorem accessors_hand_out_copies_witness :
    heapA1.Live ctxU1.attributes ∧
      ((ctxU1.Attributes heapA1).2.mutate (ctxU1.Attributes heapA1).1 sampleOps).table
          ctxU1.attributes = heapA1.table ctxU1.attributes ∧
      ((ctxU1.Flattened heapA1).2.mutate (ctxU1.Flattened heapA1).1 sampleOps).table
          ctxU1.attributes = heapA1.table ctxU1.attributes ∧
      (((ctxU1.Attributes heapA1).2.mutate (ctxU1.Attributes heapA1).1 sampleOps).table
          (ctxU1.Attributes heapA1).1).entries = [⟨"z", Any.bool true⟩] ∧
      (ctxU1.attributesView
          ((ctxU1.Attributes heapA1).2.mutate (ctxU1.Attributes heapA1).1 sampleOps)).entries =
        [⟨"a", Any.int 1⟩] ∧
      (ctxU1.flattenedView
          ((ctxU1.Flattened heapA1).2.mutate (ctxU1.Flattened heapA1).1 sampleOps)).entries =
        [⟨"targetingKey", Any.str "u1"⟩, ⟨"a", Any.int 1⟩] :=
  ⟨by decide, (accessors_hand_out_copies ctxU1 heapA1 (by decide) sampleOps).1.2.1,
    (accessors_hand_out_copies ctxU1 heapA1 (by decide) sampleOps).2.2.1,
    by decide, by decide, by decide⟩

/-- C3: for every targeting key `k` and mapping `m`, whatever entries the
caller adds, overwrites or deletes in `m` after
`e := NewEvaluationContext(k, m)`, `e.Attributes()` still has exactly the
entries `m` had at construction time (and so have `e.Attribute(key)` and the
stored table): the constructor stores a copy of `m`, not `m` itself. -/
theorem newEvaluationContext_stores_copy (k : String) (m : MapRef) (h : Heap)
    (hm : h.Live m) (ops : List MapOp) :
    (NewEvaluationContext k m h).1.attributes ≠ m ∧
      SameEntries
        ((NewEvaluationContext k m h).1.attributesView
          ((NewEvaluationContext k m h).2.mutate m ops))
        (h.table m) ∧
      (∀ key, (NewEvaluationContext k m h).1.Attribute
          ((NewEvaluationContext k m h).2.mutate m ops) key = h.index m key) := by
  have hne := newEvaluationContext_attributes_ne k m h hm
  have hl := live_newEvaluationContext k m h
  have ht := table_mutate_other (NewEvaluationContext k m h).2 m
    (NewEvaluationContext k m h).1.attributes (Ne.symm hne) ops
  have hs := stored_newEvaluationContext k m h hm
  refine ⟨hne, fun key => ?_, fun key => ?_⟩
  · rw [attributesView_eq _ _ (live_mutate _ _ _ ops hl) key, ht]
    exact hs key
  · simp only [EvaluationContext.Attribute, Heap.index, ht, hs key]

theorem newEvaluationContext_stores_copy_witness :
    heapA1.Live (some 0) ∧
      (NewEvaluationContext "k" (some 0) heapA1).1.attributes ≠ some 0 ∧
      SameEntries
        ((NewEvaluationContext "k" (some 0) heapA1).1.attributesView
          ((NewEvaluationContext "k" (some 0) heapA1).2.mutate (some 0) sampleOps))
        (heapA1.table (some 0)) ∧
      (((NewEvaluationContext "k" (some 0) heapA1).2.mutate (some 0) sampleOps).table
          (some 0)).entries = [⟨"z", Any.bool true⟩] ∧
      ((NewEvaluationContext "k" (some 0) heapA1).1.attributesView
          ((NewEvaluationContext "k" (some 0) heapA1).2.mutate (some 0) sampleOps)).entries =
        [⟨"a", Any.int 1⟩] :=
  ⟨by decide, (newEvaluationContext_stores_copy "k" (some 0) heapA1 (by decide) sampleOps).1,
    (newEvaluationContext_stores_copy "k" (some 0) heapA1 (by decide) sampleOps).2.1,
    by decide, by decide⟩

/-- C4: for every non-empty targeting key `k` and every attribute mapping `m`,
`NewEvaluationContext(k, m).Flattened()` is `m` with the reserved key
`"targetingKey"` set to `k`: under the reserved key it holds `k` (whatever `m`
holds there), under every other key it holds what `m` holds, and it has no
other key. -/
theorem flattened_newEvaluationContext (k : String) (hk : k ≠ "") (m : MapRef) (h : Heap)
    (hm : h.Live m) (key : String) :
    ((NewEvaluationContext k m h).1.flattenedView (NewEvaluationContext k m h).2).lookup key =
      if key = OpenFeature.TargetingKey then some (Any.str k) else (h.table m).lookup key := by
  rw [lookup_flattenedView _ _ (live_newEvaluationContext k m h) key,
    stored_newEvaluationContext k m h hm key]
  have : (NewEvaluationContext k m h).1.targetingKey = k := rfl
  simp only [this, ne_eq, hk, not_false_eq_true, true_and]

theorem flattened_newEvaluationContext_witness :
    "u1" ≠ "" ∧ heapA1.Live (some 0) ∧
      ((NewEvaluationContext "u1" (some 0) heapA1).1.flattenedView
          (NewEvaluationContext "u1" (some 0) heapA1).2).lookup "a" =
        (if "a" = OpenFeature.TargetingKey then some (Any.str "u1")
          else (heapA1.table (some 0)).lookup "a") ∧
      ((NewEvaluationContext "u1" (some 0) heapA1).1.flattenedView
          (NewEvaluationContext "u1" (some 0) heapA1).2).entries =
        [⟨"targetingKey", Any.str "u1"⟩, ⟨"a", Any.int 1⟩] ∧
      (heapA1.table (some 0)).entries = [⟨"a", Any.int 1⟩] :=
  ⟨by decide, by decide,
    flattened_newEvaluationContext "u1" (by decide) (some 0) heapA1 (by decide) "a",
    by decide, by decide⟩

/-- C5: for every carrier `ctx` and every evaluation context `ec`, the
attributes of `TransactionContext(MergeTransactionContext(ctx, ec))` are the
union of the attributes of `ec` and those of `TransactionContext(ctx)`: under
each key the value of `ec` when `ec` has the key, otherwise the value of the
transaction context already attached, and no entry when neither has the
key. -/
theorem mergeTransactionContext_attributes (ctx : Context) (ec : EvaluationContext)
    (h : Heap) (hec : h.Live ec.attributes)
    (hold : h.Live (TransactionContext ctx).attributes) (key : String) :
    ((TransactionContext (MergeTransactionContext ctx ec h).1).attributesView
        (MergeTransactionContext ctx ec h).2).lookup key =
      match (h.table ec.attributes).lookup key with
      | some v => some v
      | none => (h.table (TransactionContext ctx).attributes).lookup key := by
  have hm : (MergeTransactionContext ctx ec h) =
      (WithTransactionContext ctx (mergeContexts ec (TransactionContext ctx) h).1,
        (mergeContexts ec (TransactionContext ctx) h).2) := rfl
  rw [hm, transactionContext_with]
  rw [attributesView_eq _ _ (live_mergeContexts ec (TransactionContext ctx) h) key]
  exact lookup_mergeContexts ec (TransactionContext ctx) h hec hold key

theorem mergeTransactionContext_attributes_witness :
    mergedA1.2.Live (some 1) ∧ mergedA1.2.Live (TransactionContext mergedA1.1).attributes ∧
      ((TransactionContext (MergeTransactionContext mergedA1.1
            { targetingKey := "", attributes := some 1 } mergedA1.2).1).attributesView
          (MergeTransactionContext mergedA1.1
            { targetingKey := "", attributes := some 1 } mergedA1.2).2).lookup "a" =
        (match (mergedA1.2.table (some 1)).lookup "a" with
          | some v => some v
          | none => (mergedA1.2.table (TransactionContext mergedA1.1).attributes).lookup "a") ∧
      ((TransactionContext mergedA1.1).attributesView mergedA1.2).entries =
        [⟨"a", Any.int 1⟩] ∧
      ((TransactionContext (MergeTransactionContext mergedA1.1
            { targetingKey := "", attributes := some 1 } mergedA1.2).1).attributesView
          (MergeTransactionContext mergedA1.1
            { targetingKey := "", attributes := some 1 } mergedA1.2).2).entries =
        [⟨"a", Any.int 1⟩, ⟨"b", Any.int 2⟩] ∧
      ((TransactionContext (MergeTransactionContext mergedA1.1
            { targetingKey := "", attributes := some 2 } mergedA1.2).1).attributesView
          (MergeTransactionContext mergedA1.1
            { targetingKey := "", attributes := some 2 } mergedA1.2).2).entries =
        [⟨"a", Any.int 2⟩] :=
  ⟨by decide, by decide,
    mergeTransactionContext_attributes mergedA1.1 { targetingKey := "", attributes := some 1 }
      mergedA1.2 (by decide) (by decide) "a",
    by decide, by decide, by decide⟩

/-- C6: for every carrier `ctx` and every evaluation context `ec`, the
targeting key of `TransactionContext(MergeTransactionContext(ctx, ec))` is the
targeting key of `ec` when that is not empty, and otherwise the targeting key
of `TransactionContext(ctx)`, which may be empty as well. -/
theorem mergeTransactionContext_targetingKey (ctx : Context) (ec : EvaluationContext)
    (h : Heap) :
    (TransactionContext (MergeTransactionContext ctx ec h).1).TargetingKey =
      if ec.TargetingKey ≠ "" then ec.TargetingKey
      else (TransactionContext ctx).TargetingKey := by
  have hm : (MergeTransactionContext ctx ec h) =
      (WithTransactionContext ctx (mergeContexts ec (TransactionContext ctx) h).1,
        (mergeContexts ec (TransactionContext ctx) h).2) := rfl
  rw [hm, transactionContext_with]
  rfl

/-- C7: for every carrier `ctx` and every evaluation context `ec`,
`TransactionContext(WithTransactionContext(ctx, ec))` is `ec` itself (same
targeting key, same attribute mapping), and so is the transaction context of
every carrier derived from that result by attaching values under keys other
than the transaction-context key. -/
theorem transactionContext_withTransactionContext (ctx : Context) (ec : EvaluationContext)
    (kvs : List (Key × Any)) (hk : ∀ kv ∈ kvs, kv.1 ≠ Key.transactionContext) :
    TransactionContext (WithTransactionContext ctx ec) = ec ∧
      TransactionContext ((WithTransactionContext ctx ec).attach kvs) = ec := by
  refine ⟨transactionContext_with ctx ec, ?_⟩
  have hv := value_attach (WithTransactionContext ctx ec) kvs Key.transactionContext hk
  have ht := transactionContext_with ctx ec
  unfold TransactionContext at ht ⊢
  rw [hv]
  exact ht

theorem transactionContext_withTransactionContext_witness :
    (∀ kv ∈ [(Key.other 1, Any.int 5), (Key.other 2, Any.evalCtx ctxU1)],
        kv.1 ≠ Key.transactionContext) ∧
      TransactionContext (WithTransactionContext ctxWrongType
        { targetingKey := "k", attributes := some 0 }) =
        { targetingKey := "k", attributes := some 0 } ∧
      TransactionContext ((WithTransactionContext ctxWrongType
          { targetingKey := "k", attributes := some 0 }).attach
          [(Key.other 1, Any.int 5), (Key.other 2, Any.evalCtx ctxU1)]) =
        { targetingKey := "k", attributes := some 0 } :=
  ⟨by decide,
    transactionContext_withTransactionContext ctxWrongType
      { targetingKey := "k", attributes := some 0 }
      [(Key.other 1, Any.int 5), (Key.other 2, Any.evalCtx ctxU1)] (by decide)⟩

/-- C8: for every carrier `ctx` that holds no `EvaluationContext` under the
transaction-context key (nothing at all, or a value of another type),
`TransactionContext(ctx)` is the empty evaluation context: its targeting key
is `""`, and both `Attributes()` and `Flattened()` return a mapping with no
entry. -/
theorem transactionContext_absent (ctx : Context)
    (hno : ∀ e, ctx.Value Key.transactionContext ≠ Any.evalCtx e) (h : Heap) :
    TransactionContext ctx = { targetingKey := "", attributes := none } ∧
      (TransactionContext ctx).TargetingKey = "" ∧
      ((TransactionContext ctx).attributesView h).entries = [] ∧
      ((TransactionContext ctx).flattenedView h).entries = [] := by
  have he : TransactionContext ctx = { targetingKey := "", attributes := none } := by
    unfold TransactionContext
    cases hv : ctx.Value Key.transactionContext with
    | evalCtx e => exact absurd hv (hno e)
    | _ => rfl
  rw [he]
  refine ⟨rfl, rfl, ?_, ?_⟩
  · simp [EvaluationContext.attributesView, EvaluationContext.Attributes, mapsCopy,
      Heap.table, Heap.make, List.getD_eq_getElem?_getD]
  · simp [EvaluationContext.flattenedView, EvaluationContext.Flattened,
      Heap.table, Heap.make, List.getD_eq_getElem?_getD]

theorem transactionContext_absent_witness :
    (∀ e, ctxWrongType.Value Key.transactionContext ≠ Any.evalCtx e) ∧
      TransactionContext ctxWrongType = { targetingKey := "", attributes := none } ∧
      (TransactionContext ctxWrongType).TargetingKey = "" ∧
      ((TransactionContext ctxWrongType).attributesView heapA1).entries = [] ∧
      ((TransactionContext ctxWrongType).flattenedView heapA1).entries = [] :=
  ⟨fun e => by simp [ctxWrongType, Context.Value],
    transactionContext_absent ctxWrongType
      (fun e => by simp [ctxWrongType, Context.Value]) heapA1⟩

/-- C9: for every carrier `ctx`, `Shutdown(ctx)` returns exactly the result of
`Shutdown(ctx)` of the API instance that `api` holds, and whatever that result
is, the singleton is re-initialised on return: one executor and one API
instance have been constructed at addresses where nothing was allocated
before, `eventing` holds that new executor, `api` holds that new instance, the
instance is built over that same executor, and neither has a provider, hook or
handler registered. -/
theorem shutdown_returns_and_reinitialises (ctx : Context) (s : Package) :
    (Shutdown ctx s).1 = (s.apiShutdown s.api ctx).1 ∧
      (Shutdown ctx s).2.executors = (s.apiShutdown s.api ctx).2.executors ++ [freshExecutor] ∧
      (Shutdown ctx s).2.apis =
        (s.apiShutdown s.api ctx).2.apis ++ [freshAPI (Shutdown ctx s).2.eventing] ∧
      (Shutdown ctx s).2.eventing = s.executors.length ∧
      (Shutdown ctx s).2.api = s.apis.length ∧
      s.executorAt (Shutdown ctx s).2.eventing = none ∧
      s.instanceAt (Shutdown ctx s).2.api = none ∧
      (Shutdown ctx s).2.executorAt (Shutdown ctx s).2.eventing = some freshExecutor ∧
      (Shutdown ctx s).2.instanceAt (Shutdown ctx s).2.api =
        some (freshAPI (Shutdown ctx s).2.eventing) := by
  have hnew := initSingleton_new (s.apiShutdown s.api ctx).2
  have hal := apiShutdown_allocated s s.api ctx
  have hev : (Shutdown ctx s).2.eventing = s.executors.length := by
    rw [shutdown_snd, initSingleton_eventing, length_executors_apiShutdown]
  have hapi : (Shutdown ctx s).2.api = s.apis.length := by
    rw [shutdown_snd, initSingleton_api, length_apis_apiShutdown]
  refine ⟨rfl, ?_, ?_, hev, hapi, ?_, ?_, ?_, ?_⟩
  · rw [shutdown_snd, initSingleton_executors]
  · rw [shutdown_snd, initSingleton_apis, initSingleton_eventing]
  · exact (hal _).1.mp hnew.1
  · exact (hal _).2.mp hnew.2
  · rw [shutdown_snd]; exact initSingleton_executorAt _
  · rw [shutdown_snd]; exact initSingleton_instanceAt _

/-- C10: for every carrier that is not cancelled, after a first
`Shutdown(ctx)`, whatever it returned, the instance a second `Shutdown(ctx)`
works on is an allocated, freshly initialised one (built over the executor in
`eventing`, empty registry, no hook, no handler), the second call returns no
error, and it leaves the singleton freshly initialised in the same way: again
a newly constructed instance over a newly constructed executor, at addresses
where nothing was allocated after the first call, with nothing registered. -/
theorem shutdown_twice (ctx : Context) (hc : ctx.cancelled = false) (s : Package) :
    (Shutdown ctx s).2.instanceAt (Shutdown ctx s).2.api =
        some (freshAPI (Shutdown ctx s).2.eventing) ∧
      (Shutdown ctx s).2.executorAt (Shutdown ctx s).2.eventing = some freshExecutor ∧
      (Shutdown ctx (Shutdown ctx s).2).1 = none ∧
      (Shutdown ctx (Shutdown ctx s).2).2.instanceAt (Shutdown ctx (Shutdown ctx s).2).2.api =
        some (freshAPI (Shutdown ctx (Shutdown ctx s).2).2.eventing) ∧
      (Shutdown ctx (Shutdown ctx s).2).2.executorAt
          (Shutdown ctx (Shutdown ctx s).2).2.eventing = some freshExecutor ∧
      (Shutdown ctx s).2.instanceAt (Shutdown ctx (Shutdown ctx s).2).2.api = none ∧
      (Shutdown ctx s).2.executorAt (Shutdown ctx (Shutdown ctx s).2).2.eventing = none := by
  have i1 : (Shutdown ctx s).2.instanceAt (Shutdown ctx s).2.api =
      some (freshAPI (Shutdown ctx s).2.eventing) := by
    rw [shutdown_snd]; exact initSingleton_instanceAt _
  have x1 : (Shutdown ctx s).2.executorAt (Shutdown ctx s).2.eventing = some freshExecutor := by
    rw [shutdown_snd]; exact initSingleton_executorAt _
  have hnew := initSingleton_new
    ((Shutdown ctx s).2.apiShutdown (Shutdown ctx s).2.api ctx).2
  have hal := apiShutdown_allocated (Shutdown ctx s).2 (Shutdown ctx s).2.api ctx
  refine ⟨i1, x1, ?_, ?_, ?_, ?_, ?_⟩
  · rw [shutdown_fst]
    simp only [Package.apiShutdown, hc, apiAt_of_instanceAt _ _ _ i1]
    rfl
  · rw [shutdown_snd (s := (Shutdown ctx s).2)]; exact initSingleton_instanceAt _
  · rw [shutdown_snd (s := (Shutdown ctx s).2)]; exact initSingleton_executorAt _
  · rw [shutdown_snd (s := (Shutdown ctx s).2)]; exact (hal _).2.mp hnew.2
  · rw [shutdown_snd (s := (Shutdown ctx s).2)]; exact (hal _).1.mp hnew.1

theorem shutdown_twice_witness :
    Context.background.cancelled = false ∧
      (Shutdown Context.background busyPackage).1 = some (Error.providerShutdown "boom") ∧
      (Shutdown Context.background busyPackage).2.instanceAt
          (Shutdown Context.background busyPackage).2.api =
        some (freshAPI (Shutdown Context.background busyPackage).2.eventing) ∧
      (Shutdown Context.background (Shutdown Context.background busyPackage).2).1 = none ∧
      (Shutdown Context.background busyPackage).2 = afterFirstShutdown ∧
      (Shutdown Context.background (Shutdown Context.background busyPackage).2).2 =
        afterSecondShutdown :=
  ⟨by decide, by decide,
    (shutdown_twice Context.background (by decide) busyPackage).1,
    (shutdown_twice Context.background (by decide) busyPackage).2.2.1,
    by decide, by decide⟩

/-- C11: for every carrier `ctx` and every domain, `SetProvider(ctx, nil)` and
`SetNamedProvider(ctx, domain, nil)` return `InvalidProviderError` and leave
the package state as it was, so nothing is bound; and for every provider the
package functions return exactly what `SetProvider` / `SetNamedProvider` of
the API instance that `api` holds return, and leave the state that call
leaves. -/
theorem setProvider_nil (ctx : Context) (domain : String) (s : Package) :
    SetProvider ctx none s = (some Error.invalidProvider, s) ∧
      SetNamedProvider ctx domain none s = (some Error.invalidProvider, s) ∧
      (∀ provider, SetProvider ctx provider s = s.apiSetProvider s.api ctx provider) ∧
      (∀ provider, SetNamedProvider ctx domain provider s =
        s.apiSetNamedProvider s.api ctx domain provider) :=
  ⟨rfl, rfl, fun _ => rfl, fun _ => rfl⟩

/-- C12: for every attribute mapping `m`, `NewTargetlessEvaluationContext(m)`
is `NewEvaluationContext("", m)`: its `TargetingKey()` is the empty string and
its `Attributes()` has exactly the entries of `m`. -/
theorem newTargetlessEvaluationContext_eq (m : MapRef) (h : Heap) (hm : h.Live m) :
    NewTargetlessEvaluationContext m h = NewEvaluationContext "" m h ∧
      (NewTargetlessEvaluationContext m h).1.TargetingKey = "" ∧
      SameEntries
        ((NewTargetlessEvaluationContext m h).1.attributesView
          (NewTargetlessEvaluationContext m h).2)
        (h.table m) := by
  refine ⟨rfl, rfl, fun key => ?_⟩
  change ((NewEvaluationContext "" m h).1.attributesView
    (NewEvaluationContext "" m h).2).lookup key = _
  rw [attributesView_eq _ _ (live_newEvaluationContext "" m h) key]
  exact stored_newEvaluationContext "" m h hm key

theorem newTargetlessEvaluationContext_eq_witness :
    heapA1.Live (some 0) ∧
      NewTargetlessEvaluationContext (some 0) heapA1 = NewEvaluationContext "" (some 0) heapA1 ∧
      (NewTargetlessEvaluationContext (some 0) heapA1).1.TargetingKey = "" ∧
      ((NewTargetlessEvaluationContext (some 0) heapA1).1.attributesView
          (NewTargetlessEvaluationContext (some 0) heapA1).2).entries = [⟨"a", Any.int 1⟩] :=
  ⟨by decide, (newTargetlessEvaluationContext_eq (some 0) heapA1 (by decide)).1,
    (newTargetlessEvaluationContext_eq (some 0) heapA1 (by decide)).2.1, by decide⟩

/-- C13: for every carrier `ctx` that has no transaction context attached and
every evaluation context `ec`, `TransactionContext(MergeTransactionContext(ctx,
ec))` has the targeting key of `ec` and exactly the attributes of `ec`. -/
theorem mergeTransactionContext_absent (ctx : Context)
    (hno : ∀ e, ctx.Value Key.transactionContext ≠ Any.evalCtx e)
    (ec : EvaluationContext) (h : Heap) (hec : h.Live ec.attributes) :
    (TransactionContext (MergeTransactionContext ctx ec h).1).TargetingKey = ec.TargetingKey ∧
      SameEntries
        ((TransactionContext (MergeTransactionContext ctx ec h).1).attributesView
          (MergeTransactionContext ctx ec h).2)
        (ec.attributesView (MergeTransactionContext ctx ec h).2) := by
  have hold := transactionContext_of_absent ctx hno
  rw [transactionContext_merge, mergeTransactionContext_eq, hold]
  constructor
  · change (mergeContexts ec _ h).1.targetingKey = ec.targetingKey
    rw [mergeContexts_targetingKey]
    by_cases hk : ec.targetingKey = "" <;> simp [hk]
  · intro key
    change ((mergeContexts ec _ h).1.attributesView (mergeContexts ec _ h).2).lookup key =
      (ec.attributesView (mergeContexts ec _ h).2).lookup key
    have hnil : h.Live ({ targetingKey := "", attributes := none } : EvaluationContext).attributes :=
      trivial
    rw [attributesView_eq _ _ (live_mergeContexts ec _ h) key,
      lookup_mergeContexts ec _ h hec hnil key,
      attributesView_eq _ _ (live_mergeContexts_old ec _ h _ hec) key,
      table_mergeContexts_old ec _ h _ hec]
    cases (h.table ec.attributes).lookup key <;> rfl

theorem mergeTransactionContext_absent_witness :
    (∀ e, ctxWrongType.Value Key.transactionContext ≠ Any.evalCtx e) ∧
      heapABA.Live ctxK1.attributes ∧
      (TransactionContext (MergeTransactionContext ctxWrongType ctxK1 heapABA).1).TargetingKey =
        ctxK1.TargetingKey ∧
      ((TransactionContext (MergeTransactionContext ctxWrongType ctxK1 heapABA).1).attributesView
          (MergeTransactionContext ctxWrongType ctxK1 heapABA).2).entries =
        [⟨"b", Any.int 2⟩] ∧
      (ctxK1.attributesView (MergeTransactionContext ctxWrongType ctxK1 heapABA).2).entries =
        [⟨"b", Any.int 2⟩] :=
  ⟨fun e => by simp [ctxWrongType, Context.Value], by decide,
    (mergeTransactionContext_absent ctxWrongType
      (fun e => by simp [ctxWrongType, Context.Value]) ctxK1 heapABA (by decide)).1,
    by decide, by decide⟩

/-- C14: for every evaluation context whose targeting key is empty,
`Flattened()` has exactly the entries of `Attributes()`: the reserved key
`"targetingKey"` is not injected, so under it the result holds what the
attributes hold there, an entry left unchanged or nothing. -/
theorem flattened_empty_targetingKey (e : EvaluationContext) (hk : e.TargetingKey = "")
    (h : Heap) (he : h.Live e.attributes) :
    SameEntries (e.flattenedView h) (e.attributesView h) ∧
      (e.flattenedView h).lookup OpenFeature.TargetingKey =
        (h.table e.attributes).lookup OpenFeature.TargetingKey := by
  have hk2 : e.targetingKey = "" := hk
  have hf : ∀ key, (e.flattenedView h).lookup key = (h.table e.attributes).lookup key := by
    intro key
    rw [lookup_flattenedView e h he key]
    simp [hk2]
  refine ⟨fun key => ?_, hf _⟩
  rw [hf key, attributesView_eq e h he key]

theorem flattened_empty_targetingKey_witness :
    ctxNoKey.TargetingKey = "" ∧ heapReserved.Live ctxNoKey.attributes ∧
      (ctxNoKey.flattenedView heapReserved).lookup OpenFeature.TargetingKey =
        (heapReserved.table ctxNoKey.attributes).lookup OpenFeature.TargetingKey ∧
      (ctxNoKey.flattenedView heapReserved).entries = [⟨"targetingKey", Any.int 4⟩] ∧
      (ctxNoKey.flattenedView heapA1).entries = [⟨"a", Any.int 1⟩] ∧
      (ctxNoKey.attributesView heapA1).entries = [⟨"a", Any.int 1⟩] :=
  ⟨by decide, by decide,
    (flattened_empty_targetingKey ctxNoKey (by decide) heapReserved (by decide)).2,
    by decide, by decide, by decide⟩

/-- C15: `WithTransactionContext` replaces and never merges: for every carrier
`ctx` and all evaluation contexts `a` and `b`,
`TransactionContext(WithTransactionContext(WithTransactionContext(ctx, a), b))`
is `b` itself, so it has the targeting key and the attribute mapping of `b` and
nothing of `a`. -/
theorem withTransactionContext_replaces (ctx : Context) (a b : EvaluationContext) :
    TransactionContext (WithTransactionContext (WithTransactionContext ctx a) b) = b := by
  unfold TransactionContext WithTransactionContext
  simp only [Context.Value, if_true]

/-- C16: `MergeTransactionContext` is idempotent in its evaluation context: for
every carrier `ctx` and every `ec`, merging `ec` a second time gives a
transaction context with the same targeting key and exactly the same
attributes as merging it once. -/
theorem mergeTransactionContext_idempotent (ctx : Context) (ec : EvaluationContext)
    (h : Heap) (hec : h.Live ec.attributes)
    (hold : h.Live (TransactionContext ctx).attributes) :
    (TransactionContext (MergeTransactionContext (MergeTransactionContext ctx ec h).1 ec
          (MergeTransactionContext ctx ec h).2).1).TargetingKey =
        (TransactionContext (MergeTransactionContext ctx ec h).1).TargetingKey ∧
      SameEntries
        ((TransactionContext (MergeTransactionContext (MergeTransactionContext ctx ec h).1 ec
            (MergeTransactionContext ctx ec h).2).1).attributesView
          (MergeTransactionContext (MergeTransactionContext ctx ec h).1 ec
            (MergeTransactionContext ctx ec h).2).2)
        ((TransactionContext (MergeTransactionContext ctx ec h).1).attributesView
          (MergeTransactionContext (MergeTransactionContext ctx ec h).1 ec
            (MergeTransactionContext ctx ec h).2).2) := by
  have key := mergeContexts_twice ec (TransactionContext ctx) h hec hold
  have e2 : (MergeTransactionContext (MergeTransactionContext ctx ec h).1 ec
      (MergeTransactionContext ctx ec h).2).2 =
      (mergeContexts ec (mergeContexts ec (TransactionContext ctx) h).1
        (mergeContexts ec (TransactionContext ctx) h).2).2 := by
    rw [mergeTransactionContext_eq, transactionContext_merge]
    rfl
  have e1 : TransactionContext (MergeTransactionContext (MergeTransactionContext ctx ec h).1 ec
      (MergeTransactionContext ctx ec h).2).1 =
      (mergeContexts ec (mergeContexts ec (TransactionContext ctx) h).1
        (mergeContexts ec (TransactionContext ctx) h).2).1 := by
    rw [transactionContext_merge, transactionContext_merge]
    rfl
  rw [e1, e2, transactionContext_merge]
  exact key

theorem mergeTransactionContext_idempotent_witness :
    mergedA1.2.Live ctxK1.attributes ∧
      mergedA1.2.Live (TransactionContext mergedA1.1).attributes ∧
      (TransactionContext (MergeTransactionContext
          (MergeTransactionContext mergedA1.1 ctxK1 mergedA1.2).1 ctxK1
          (MergeTransactionContext mergedA1.1 ctxK1 mergedA1.2).2).1).TargetingKey =
        (TransactionContext (MergeTransactionContext mergedA1.1 ctxK1 mergedA1.2).1).TargetingKey ∧
      ((TransactionContext (MergeTransactionContext
            (MergeTransactionContext mergedA1.1 ctxK1 mergedA1.2).1 ctxK1
            (MergeTransactionContext mergedA1.1 ctxK1 mergedA1.2).2).1).attributesView
          (MergeTransactionContext
            (MergeTransactionContext mergedA1.1 ctxK1 mergedA1.2).1 ctxK1
            (MergeTransactionContext mergedA1.1 ctxK1 mergedA1.2).2).2).entries =
        [⟨"a", Any.int 1⟩, ⟨"b", Any.int 2⟩] ∧
      ((TransactionContext (MergeTransactionContext mergedA1.1 ctxK1 mergedA1.2).1).attributesView
          (MergeTransactionContext
            (MergeTransactionContext mergedA1.1 ctxK1 mergedA1.2).1 ctxK1
            (MergeTransactionContext mergedA1.1 ctxK1 mergedA1.2).2).2).entries =
        [⟨"a", Any.int 1⟩, ⟨"b", Any.int 2⟩] :=
  ⟨by decide, by decide,
    (mergeTransactionContext_idempotent mergedA1.1 ctxK1 mergedA1.2 (by decide) (by decide)).1,
    by decide, by decide⟩

end OpenFeature
